import Mathlib

/-!
Shallow embedding of `safe_transaction_service/history/signals.py`.

The durable store is modelled as explicit lists of rows (`DBState`); each
Django `post_save` handler becomes a pure state-transition function.  Python
truthiness of nullable string fields (`None` and `""` are falsy) is captured
by `truthyStr`.  `timezone.now()` is passed in as an explicit `now : Nat`
timestamp.  Django's `MultisigTransaction` primary key is its
`safe_tx_hash`, so a foreign key to a transaction is modelled as an
`Option String` holding that hash.
-/

namespace SnaxHistory

structure MultisigTransaction where
  safe_tx_hash : String
  safe : String
  value : Nat
  trusted : Bool
  created : Nat
  modified : Nat
deriving DecidableEq, Repr

structure MultisigConfirmation where
  id : Nat
  owner : String
  multisig_transaction : Option String
  multisig_transaction_hash : Option String
  created : Nat
deriving DecidableEq, Repr

structure DBState where
  transactions : List MultisigTransaction
  confirmations : List MultisigConfirmation
deriving DecidableEq, Repr

/-- Python truthiness for a nullable string field: `None` and `""` are falsy;
a non-empty string is truthy (and the walrus form keeps its value). -/
def truthyStr : Option String → Option String
  | none => none
  | some s => if s = "" then none else some s

/-- The queryset `MultisigConfirmation.objects.without_transaction()
.filter(multisig_transaction_hash=h)`: confirmations whose foreign key is
still null and whose referenced hash equals `h`.
(`without_transaction` lives in `history/models.py`; the spec describes the
rows it selects as the not-yet-bound confirmations.) -/
def matchesUnbound (h : String) (c : MultisigConfirmation) : Bool :=
  c.multisig_transaction.isNone && c.multisig_transaction_hash == some h

/-- The `sender == MultisigTransaction` branch of `bind_confirmation`
(signals.py lines 57-67): a bulk conditional update binding every matching
unbound confirmation to the new transaction, then, if at least one row was
updated, `instance.save(update_fields=["modified", "trusted"])`. -/
def bindTxBranch (now : Nat) (t : MultisigTransaction) (s : DBState) : DBState :=
  let updated := (s.confirmations.filter (matchesUnbound t.safe_tx_hash)).length
  let confs := s.confirmations.map fun c =>
    if matchesUnbound t.safe_tx_hash c
    then { c with multisig_transaction := some t.safe_tx_hash } else c
  if updated ≠ 0 then
    { transactions := s.transactions.map fun u =>
        if u.safe_tx_hash = t.safe_tx_hash
        then { u with modified := now, trusted := true } else u,
      confirmations := confs }
  else
    { s with confirmations := confs }

/-- The `sender == MultisigConfirmation` branch of `bind_confirmation`
(signals.py lines 68-87).  If the confirmation already carries a bound
transaction id, a targeted `filter(safe_tx_hash=...).update(...)` refreshes
that transaction; otherwise, when the referenced hash is truthy, a point
lookup (`objects.get`) is attempted, `DoesNotExist` being swallowed. -/
def bindConfBranch (c : MultisigConfirmation) (s : DBState) : DBState :=
  if (truthyStr c.multisig_transaction).isSome then
    { s with transactions := s.transactions.map fun t =>
        if some t.safe_tx_hash = c.multisig_transaction_hash
        then { t with modified := c.created, trusted := true } else t }
  else
    match truthyStr c.multisig_transaction_hash with
    | some h =>
      match s.transactions.find? (fun t => t.safe_tx_hash == h) with
      | some t =>
          { transactions := s.transactions.map fun u =>
              if u.safe_tx_hash = t.safe_tx_hash
              then { u with modified := c.created, trusted := true } else u,
            confirmations := s.confirmations.map fun c2 =>
              if c2.id = c.id
              then { c2 with multisig_transaction := some t.safe_tx_hash } else c2 }
      | none => s
    | none => s

/-- The instance a `bind_confirmation` event carries (the `sender` dispatch
collapses into the constructor). -/
inductive BindInstance where
  | tx (t : MultisigTransaction)
  | conf (c : MultisigConfirmation)
deriving DecidableEq, Repr

/-- Handler `bind_confirmation` (signals.py lines 39-87): returns immediately unless
`created`, then dispatches on the sender model. -/
def bind_confirmation (now : Nat) (inst : BindInstance) (created : Bool)
    (s : DBState) : DBState :=
  if created then
    match inst with
    | .tx t => bindTxBranch now t s
    | .conf c => bindConfBranch c s
  else s

/-- External writer inserts a transaction row; the `post_save` signal then
runs `bind_confirmation` with `created=True`. -/
def createTx (now : Nat) (t : MultisigTransaction) (s : DBState) : DBState :=
  bind_confirmation now (.tx t) true
    { s with transactions := s.transactions ++ [t] }

/-- External writer inserts a confirmation row; the `post_save` signal then
runs `bind_confirmation` with `created=True`. -/
def createConf (now : Nat) (c : MultisigConfirmation) (s : DBState) : DBState :=
  bind_confirmation now (.conf c) true
    { s with confirmations := s.confirmations ++ [c] }

/-- Timestamp the binder writes into `modified` when it binds: `timezone.now()`
for the transaction branch, `instance.created` for the confirmation branch. -/
def eventTimestamp (now : Nat) : BindInstance → Nat
  | .tx _ => now
  | .conf c => c.created

/-- The union of database instances `get_safe_addresses_involved_from_db_instance`
accepts.  The confirmation case carries the dereferenced
`instance.multisig_transaction` foreign-key object (`none` when unbound);
`other` stands for any entity kind outside the listed ones. -/
inductive DBInstance where
  | tokenTransfer (dest : Option String) (source : Option String)
  | multisigTransaction (t : MultisigTransaction)
  | multisigConfirmation (c : MultisigConfirmation) (boundTx : Option MultisigTransaction)
  | internalTx (dest : Option String)
  | other
deriving DecidableEq, Repr

/-- Resolver `get_safe_addresses_involved_from_db_instance` (signals.py lines 113-142):
the Python `isinstance` chain, appending to an initially empty list.
`dest` stands for the source field named `to`, `source` for `_from`. -/
def get_safe_addresses_involved_from_db_instance : DBInstance → List (Option String)
  | .tokenTransfer dest source => [] ++ [dest] ++ [source]
  | .multisigTransaction t => [] ++ [some t.safe]
  | .multisigConfirmation _ boundTx =>
      match boundTx with
      | some t => [] ++ [some t.safe]
      | none => []
  | .internalTx dest => [] ++ [dest]
  | .other => []

/-- A candidate notification payload as returned by `build_event_payload`:
`payload.get("address")` may be absent (`none`); the body is opaque. -/
structure Payload where
  address : Option String
  body : Nat
deriving DecidableEq, Repr

/-- An outbound side effect of `_process_notification_event`:
`send_notification_task.apply_async(args=(address, payload), countdown, priority)`
or `queue_service.send_event(payload)`. -/
inductive DispatchAction where
  | enqueue (address : String) (payload : Payload) (countdown : Nat) (priority : Nat)
  | publish (payload : Payload)
deriving DecidableEq, Repr

/-- Outcome of a `_process_notification_event` run: the outbound calls that
completed, in order, and the exception (if any) that propagated to the
caller — `none` means a normal return. -/
structure NotifResult where
  performed : List DispatchAction
  error : Option String
deriving DecidableEq, Repr

def assertMsg : String := "An instance cannot be created and deleted at the same time"

/-- The `for payload in payloads` loop of `_process_notification_event`
(signals.py lines 166-186).  The relevance classifier is called with
`(sender, instance, created)`, identical on every iteration, so it is
modelled by the single boolean `relevant`.  The two channel calls `enq`
(Celery `apply_async`) and `pub` (`queue_service.send_event`) may raise;
the source wraps neither in a `try`, so a raised exception aborts the loop
and propagates. -/
def dispatchLoop (relevant : Bool) (enq : String → Payload → Except String Unit)
    (pub : Payload → Except String Unit) : List Payload → NotifResult
  | [] => ⟨[], none⟩
  | p :: rest =>
    match truthyStr p.address with
    | some a =>
      if relevant then
        match enq a p with
        | .error e => ⟨[], some e⟩
        | .ok _ =>
          match pub p with
          | .error e => ⟨[.enqueue a p 5 2], some e⟩
          | .ok _ =>
            let r := dispatchLoop relevant enq pub rest
            ⟨.enqueue a p 5 2 :: .publish p :: r.performed, r.error⟩
      else dispatchLoop relevant enq pub rest
    | none => dispatchLoop relevant enq pub rest

/-- Dispatcher `_process_notification_event` (signals.py lines 145-186): the leading
`assert not (created and deleted)` raises before `build_event_payload` is
ever consulted; otherwise the payload loop runs.  `payloads` is the list
`build_event_payload(sender, instance, deleted=deleted)` returns. -/
def process_notification_event (payloads : List Payload) (relevant : Bool)
    (enq : String → Payload → Except String Unit)
    (pub : Payload → Except String Unit)
    (created deleted : Bool) : NotifResult :=
  if created && deleted then ⟨[], some assertMsg⟩
  else dispatchLoop relevant enq pub payloads

/-- The `SafeLastStatus` row (current status of a Safe); representative
field set, since `history/models.py` is outside this source unit. -/
structure SafeLastStatus where
  address : String
  nonce : Nat
  threshold : Nat
  owners : List String
deriving DecidableEq, Repr

/-- A `SafeStatus` historical row, same field set as `SafeLastStatus`. -/
structure SafeStatus where
  address : String
  nonce : Nat
  threshold : Nat
  owners : List String
deriving DecidableEq, Repr

/-- Modelled from the spec: `SafeStatus.from_status_instance` is defined in
`history/models.py`, which is not part of this source unit; the spec
describes it as deriving a snapshot from the CurrentStatus instance's full
field set — a value-copy, not a reference. -/
def SafeStatus.from_status_instance (s : SafeLastStatus) : SafeStatus :=
  ⟨s.address, s.nonce, s.threshold, s.owners⟩

/-- Handler `add_to_historical_table` (signals.py lines 194-216): on every save of a
`SafeLastStatus` (the `created` flag is ignored), derive a `SafeStatus`
snapshot, insert it as a new row, and return it. -/
def add_to_historical_table (history : List SafeStatus) (inst : SafeLastStatus)
    (created : Bool) : List SafeStatus × SafeStatus :=
  let safe_status := SafeStatus.from_status_instance inst
  (history ++ [safe_status], safe_status)

theorem bind_confirmation_tx_eq (now : Nat) (t : MultisigTransaction) (s : DBState) :
    bind_confirmation now (.tx t) true s = bindTxBranch now t s := rfl

theorem bind_confirmation_conf_eq (now : Nat) (c : MultisigConfirmation) (s : DBState) :
    bind_confirmation now (.conf c) true s = bindConfBranch c s := rfl

theorem bind_confirmation_not_created (now : Nat) (inst : BindInstance) (s : DBState) :
    bind_confirmation now inst false s = s := rfl

theorem truthyStr_eq_some {o : Option String} {h : String}
    (he : truthyStr o = some h) : o = some h := by
  cases o with
  | none => simp [truthyStr] at he
  | some s =>
    by_cases hs : s = ""
    · simp [truthyStr, hs] at he
    · simp [truthyStr, hs] at he
      rw [he]

theorem map_ite_id {α : Type} (l : List α) (p : α → Prop) [DecidablePred p]
    (f : α → α) (h : ∀ a ∈ l, ¬ p a) :
    (l.map fun a => if p a then f a else a) = l := by
  induction l with
  | nil => rfl
  | cons x xs ih =>
    simp only [List.map_cons]
    rw [if_neg (h x (List.mem_cons_self x xs)),
      ih fun a ha => h a (List.mem_cons_of_mem _ ha)]

theorem matchesUnbound_iff (h : String) (c : MultisigConfirmation) :
    matchesUnbound h c = true ↔
      c.multisig_transaction = none ∧ c.multisig_transaction_hash = some h := by
  simp [matchesUnbound, Option.isNone_iff_eq_none]

theorem exists_matchesUnbound_iff (h0 : String) (l : List MultisigConfirmation) :
    (l.filter (matchesUnbound h0)).length ≠ 0 ↔
      ∃ c ∈ l, c.multisig_transaction = none ∧
        c.multisig_transaction_hash = some h0 := by
  rw [Ne, List.length_eq_zero, List.filter_eq_nil_iff]
  push_neg
  constructor
  · rintro ⟨c, hc, hm⟩
    exact ⟨c, hc, (matchesUnbound_iff h0 c).1 (by simpa using hm)⟩
  · rintro ⟨c, hc, hm⟩
    refine ⟨c, hc, ?_⟩
    simp [(matchesUnbound_iff h0 c).2 hm]

/-- C4: the address resolver is total and pure, and by entity kind returns:
Transfer → [destination, source]; Transaction → [owning address];
Confirmation → [owning address of its bound Transaction] when bound, else [];
InternalTransaction → [destination]; any other kind → []. -/
theorem C4_address_resolver_table :
    (∀ dst src, get_safe_addresses_involved_from_db_instance
        (.tokenTransfer dst src) = [dst, src]) ∧
    (∀ t, get_safe_addresses_involved_from_db_instance
        (.multisigTransaction t) = [some t.safe]) ∧
    (∀ c t, get_safe_addresses_involved_from_db_instance
        (.multisigConfirmation c (some t)) = [some t.safe]) ∧
    (∀ c, get_safe_addresses_involved_from_db_instance
        (.multisigConfirmation c none) = []) ∧
    (∀ dst, get_safe_addresses_involved_from_db_instance
        (.internalTx dst) = [dst]) ∧
    get_safe_addresses_involved_from_db_instance .other = [] :=
  ⟨fun _ _ => rfl, fun _ => rfl, fun _ _ => rfl, fun _ => rfl, fun _ => rfl, rfl⟩

/-- C5: invoking the notification hook with both `created` and `deleted` set
raises the assertion: the result is the assertion error with no enqueue and
no publish performed, and it is the same for every payload list, classifier
and channel — so no payload is built or consulted. -/
theorem C5_created_and_deleted_asserts (payloads : List Payload) (relevant : Bool)
    (enq : String → Payload → Except String Unit)
    (pub : Payload → Except String Unit) :
    process_notification_event payloads relevant enq pub true true
      = ⟨[], some assertMsg⟩ := rfl

/-- C3: running `bind_confirmation` for a newly created confirmation whose
referenced hash matches no stored transaction leaves the whole database
state unchanged (and, the embedding being total, raises no error: the
`DoesNotExist` of the point lookup is swallowed by the source). -/
theorem C3_orphan_confirmation_is_noop (now : Nat) (c : MultisigConfirmation)
    (s : DBState)
    (h : ∀ t ∈ s.transactions, some t.safe_tx_hash ≠ c.multisig_transaction_hash) :
    bind_confirmation now (.conf c) true s = s := by
  rw [bind_confirmation_conf_eq]
  unfold bindConfBranch
  by_cases hb : (truthyStr c.multisig_transaction).isSome
  · rw [if_pos hb,
      map_ite_id s.transactions
        (fun t => some t.safe_tx_hash = c.multisig_transaction_hash) _ h]
  · rw [if_neg hb]
    cases hh : truthyStr c.multisig_transaction_hash with
    | none => rfl
    | some h0 =>
      have hch : c.multisig_transaction_hash = some h0 := truthyStr_eq_some hh
      have hfind : s.transactions.find? (fun t => t.safe_tx_hash == h0) = none := by
        rw [List.find?_eq_none]
        intro t ht
        have := h t ht
        rw [hch] at this
        simp only [ne_eq, Option.some.injEq] at this
        simp [this]
      simp only [hfind]

/-- Witness for C3: a confirmation referencing hash "bb" against a store
holding only hash "aa" leaves the store untouched. -/
theorem C3_orphan_confirmation_is_noop_witness :
    bind_confirmation 3 (.conf ⟨7, "own7", none, some "bb", 4⟩) true
        ⟨[⟨"aa", "safeZ", 0, false, 1, 1⟩], []⟩
      = ⟨[⟨"aa", "safeZ", 0, false, 1, 1⟩], []⟩ :=
  C3_orphan_confirmation_is_noop 3 ⟨7, "own7", none, some "bb", 4⟩
    ⟨[⟨"aa", "safeZ", 0, false, 1, 1⟩], []⟩ (by decide)

/-- C10: a newly created confirmation with no bound transaction reference and
an empty or absent referenced hash makes `bind_confirmation` a complete
no-op: every transaction and every confirmation is unchanged. -/
theorem C10_blank_confirmation_is_noop (now : Nat) (c : MultisigConfirmation)
    (s : DBState) (h1 : c.multisig_transaction = none)
    (h2 : c.multisig_transaction_hash = none ∨ c.multisig_transaction_hash = some "") :
    bind_confirmation now (.conf c) true s = s := by
  rw [bind_confirmation_conf_eq]
  unfold bindConfBranch
  rcases h2 with h2 | h2 <;> simp [h1, h2, truthyStr]

/-- Witness for C10: a confirmation with neither a bound reference nor a
referenced hash leaves a populated store untouched. -/
theorem C10_blank_confirmation_is_noop_witness :
    bind_confirmation 9 (.conf ⟨1, "own1", none, none, 5⟩) true
        ⟨[⟨"aa", "safeZ", 0, false, 1, 1⟩], [⟨1, "own1", none, none, 5⟩]⟩
      = ⟨[⟨"aa", "safeZ", 0, false, 1, 1⟩], [⟨1, "own1", none, none, 5⟩]⟩ :=
  C10_blank_confirmation_is_noop 9 ⟨1, "own1", none, none, 5⟩
    ⟨[⟨"aa", "safeZ", 0, false, 1, 1⟩], [⟨1, "own1", none, none, 5⟩]⟩ rfl (Or.inl rfl)

/-- C8: every save of a `SafeLastStatus` row (created or overwritten alike,
with no filtering) appends exactly one new `SafeStatus` snapshot equal to
the instance's field set, leaves every prior snapshot untouched, and
returns the new snapshot. -/
theorem C8_snapshot_appended (history : List SafeStatus) (inst : SafeLastStatus)
    (created : Bool) :
    (add_to_historical_table history inst created).1
      = history ++ [(add_to_historical_table history inst created).2] ∧
    (add_to_historical_table history inst created).1.length = history.length + 1 ∧
    (add_to_historical_table history inst created).1.take history.length = history ∧
    (add_to_historical_table history inst created).2.address = inst.address ∧
    (add_to_historical_table history inst created).2.nonce = inst.nonce ∧
    (add_to_historical_table history inst created).2.threshold = inst.threshold ∧
    (add_to_historical_table history inst created).2.owners = inst.owners ∧
    add_to_historical_table history inst created
      = add_to_historical_table history inst true := by
  refine ⟨rfl, ?_, List.take_left history _, rfl, rfl, rfl, rfl, rfl⟩
  simp [add_to_historical_table]

theorem getElem?_map_ite {α : Type} {l : List α} {i : Nat} {a a' : α}
    (p : α → Prop) [DecidablePred p] (f : α → α)
    (h : l[i]? = some a)
    (h' : (l.map fun x => if p x then f x else x)[i]? = some a') :
    (p a ∧ a' = f a) ∨ (¬ p a ∧ a' = a) := by
  rw [List.getElem?_map, h, Option.map_some', Option.some.injEq] at h'
  by_cases hp : p a
  · exact Or.inl ⟨hp, by rw [← h', if_pos hp]⟩
  · exact Or.inr ⟨hp, by rw [← h', if_neg hp]⟩

/-- C2: on creation of a transaction, `bind_confirmation` binds every
not-yet-bound confirmation whose referenced hash equals the new transaction's
hash (touching none of its other fields and no other confirmation), and —
if and only if at least one confirmation was so updated — sets the
transaction row's `trusted` flag and `modified` timestamp while leaving
every other field of every transaction unchanged. -/
theorem C2_tx_creation_binds_and_promotes (now : Nat) (t : MultisigTransaction)
    (s s' : DBState) (hs' : bind_confirmation now (.tx t) true s = s') :
    s'.confirmations.length = s.confirmations.length ∧
    s'.transactions.length = s.transactions.length ∧
    (∀ (i : Nat) (c c' : MultisigConfirmation),
      s.confirmations[i]? = some c → s'.confirmations[i]? = some c' →
      ((c.multisig_transaction = none ∧
          c.multisig_transaction_hash = some t.safe_tx_hash) →
        c'.id = c.id ∧ c'.owner = c.owner ∧
        c'.multisig_transaction = some t.safe_tx_hash ∧
        c'.multisig_transaction_hash = c.multisig_transaction_hash ∧
        c'.created = c.created) ∧
      (¬(c.multisig_transaction = none ∧
          c.multisig_transaction_hash = some t.safe_tx_hash) →
        c' = c)) ∧
    ((∃ c ∈ s.confirmations, c.multisig_transaction = none ∧
        c.multisig_transaction_hash = some t.safe_tx_hash) →
      ∀ (i : Nat) (u u' : MultisigTransaction),
        s.transactions[i]? = some u → s'.transactions[i]? = some u' →
        (u.safe_tx_hash = t.safe_tx_hash →
          u'.trusted = true ∧ u'.modified = now ∧
          u'.safe_tx_hash = u.safe_tx_hash ∧ u'.safe = u.safe ∧
          u'.value = u.value ∧ u'.created = u.created) ∧
        (u.safe_tx_hash ≠ t.safe_tx_hash → u' = u)) ∧
    ((¬∃ c ∈ s.confirmations, c.multisig_transaction = none ∧
        c.multisig_transaction_hash = some t.safe_tx_hash) →
      s'.transactions = s.transactions) := by
  subst hs'
  rw [bind_confirmation_tx_eq]
  unfold bindTxBranch
  by_cases hk : (s.confirmations.filter (matchesUnbound t.safe_tx_hash)).length ≠ 0
  · rw [if_pos hk]
    refine ⟨by simp, by simp, ?_, ?_, ?_⟩
    · intro i c c' hc hc'
      simp only [List.getElem?_map, hc, Option.map_some', Option.some.injEq] at hc'
      constructor
      · intro hcond
        rw [← hc', if_pos ((matchesUnbound_iff t.safe_tx_hash c).2 hcond)]
        exact ⟨rfl, rfl, rfl, rfl, rfl⟩
      · intro hcond
        rw [← hc',
          if_neg (fun hb => hcond ((matchesUnbound_iff t.safe_tx_hash c).1 hb))]
    · intro _ i u u' hu hu'
      simp only [List.getElem?_map, hu, Option.map_some', Option.some.injEq] at hu'
      constructor
      · intro hcond
        rw [← hu', if_pos hcond]
        exact ⟨rfl, rfl, rfl, rfl, rfl, rfl⟩
      · intro hcond
        rw [← hu', if_neg hcond]
    · intro hnone
      exact absurd ((exists_matchesUnbound_iff t.safe_tx_hash s.confirmations).1 hk)
        hnone
  · rw [if_neg hk]
    refine ⟨by simp, rfl, ?_, ?_, fun _ => rfl⟩
    · intro i c c' hc hc'
      simp only [List.getElem?_map, hc, Option.map_some', Option.some.injEq] at hc'
      constructor
      · intro hcond
        rw [← hc', if_pos ((matchesUnbound_iff t.safe_tx_hash c).2 hcond)]
        exact ⟨rfl, rfl, rfl, rfl, rfl⟩
      · intro hcond
        rw [← hc',
          if_neg (fun hb => hcond ((matchesUnbound_iff t.safe_tx_hash c).1 hb))]
    · intro hex
      exact absurd ((exists_matchesUnbound_iff t.safe_tx_hash s.confirmations).2 hex)
        hk

/-- Witness for C2: a fresh transaction with one matching unbound
confirmation in store; the bulk update binds it and the transaction row is
promoted (modified := 7, trusted := true). -/
theorem C2_tx_creation_binds_and_promotes_witness :
    (bind_confirmation 7 (.tx ⟨"hx", "safeA", 5, false, 1, 1⟩) true
        ⟨[⟨"hx", "safeA", 5, false, 1, 1⟩],
         [⟨1, "own1", none, some "hx", 2⟩]⟩).transactions.length = 1 ∧
    (⟨"hx", "safeA", 5, true, 1, 7⟩ : MultisigTransaction).trusted = true ∧
    (⟨"hx", "safeA", 5, true, 1, 7⟩ : MultisigTransaction).modified = 7 := by
  have h := C2_tx_creation_binds_and_promotes 7 ⟨"hx", "safeA", 5, false, 1, 1⟩
      ⟨[⟨"hx", "safeA", 5, false, 1, 1⟩], [⟨1, "own1", none, some "hx", 2⟩]⟩ _ rfl
  have h2 := h.2.2.2.1 ⟨⟨1, "own1", none, some "hx", 2⟩, by decide, rfl, rfl⟩ 0
      ⟨"hx", "safeA", 5, false, 1, 1⟩ ⟨"hx", "safeA", 5, true, 1, 7⟩ (by decide) (by decide)
  exact ⟨(h.2.1).trans rfl, (h2.1 rfl).1, (h2.1 rfl).2.1⟩

theorem getElem?_map_ite' {α : Type} {l : List α} {i : Nat} {a' : α}
    (p : α → Prop) [DecidablePred p] (f : α → α)
    (h' : (l.map fun x => if p x then f x else x)[i]? = some a') :
    ∃ a, l[i]? = some a ∧ ((p a ∧ a' = f a) ∨ (¬ p a ∧ a' = a)) := by
  rw [List.getElem?_map] at h'
  cases hl : l[i]? with
  | none => rw [hl] at h'; simp at h'
  | some a =>
    rw [hl, Option.map_some', Option.some.injEq] at h'
    by_cases hp : p a
    · exact ⟨a, rfl, Or.inl ⟨hp, by rw [← h', if_pos hp]⟩⟩
    · exact ⟨a, rfl, Or.inr ⟨hp, by rw [← h', if_neg hp]⟩⟩

theorem C9core_refl (now : Nat) (inst : BindInstance) (s : DBState) :
    (∀ (i : Nat) (c c' : MultisigConfirmation) (h : String),
      s.confirmations[i]? = some c → s.confirmations[i]? = some c' →
      c.multisig_transaction = some h → c'.multisig_transaction ≠ none) ∧
    (∀ (i : Nat) (c c' : MultisigConfirmation) (h : String),
      s.confirmations[i]? = some c → s.confirmations[i]? = some c' →
      c.multisig_transaction = none → c'.multisig_transaction = some h →
      ∀ (j : Nat) (t' : MultisigTransaction),
        s.transactions[j]? = some t' → t'.safe_tx_hash = h →
        t'.trusted = true ∧ t'.modified = eventTimestamp now inst) ∧
    (∀ (j : Nat) (u u' : MultisigTransaction),
      s.transactions[j]? = some u → s.transactions[j]? = some u' →
      u.trusted = true → u'.trusted = true) := by
  refine ⟨?_, ?_, ?_⟩
  · intro i c c' h hc hc' hb
    rw [hc, Option.some.injEq] at hc'
    rw [← hc', hb]
    simp
  · intro i c c' h hc hc' hn hb
    rw [hc, Option.some.injEq] at hc'
    rw [← hc', hn] at hb
    exact absurd hb (by simp)
  · intro j u u' hu hu' ht
    rw [hu, Option.some.injEq] at hu'
    rw [← hu']
    exact ht

/-- C9: no run of `bind_confirmation` ever clears an existing confirmation
back-reference; whenever a run binds a previously unbound confirmation to a
transaction hash, every transaction row carrying that hash ends up trusted
with its modification time refreshed to the event's timestamp
(`timezone.now()` on the transaction branch, the confirmation's creation
time on the confirmation branch); and no run ever turns a transaction's
trusted flag from true to false. -/
theorem C9_binding_and_trust_monotone (now : Nat) (inst : BindInstance)
    (created : Bool) (s s' : DBState)
    (hs' : bind_confirmation now inst created s = s') :
    (∀ (i : Nat) (c c' : MultisigConfirmation) (h : String),
      s.confirmations[i]? = some c → s'.confirmations[i]? = some c' →
      c.multisig_transaction = some h → c'.multisig_transaction ≠ none) ∧
    (∀ (i : Nat) (c c' : MultisigConfirmation) (h : String),
      s.confirmations[i]? = some c → s'.confirmations[i]? = some c' →
      c.multisig_transaction = none → c'.multisig_transaction = some h →
      ∀ (j : Nat) (t' : MultisigTransaction),
        s'.transactions[j]? = some t' → t'.safe_tx_hash = h →
        t'.trusted = true ∧ t'.modified = eventTimestamp now inst) ∧
    (∀ (j : Nat) (u u' : MultisigTransaction),
      s.transactions[j]? = some u → s'.transactions[j]? = some u' →
      u.trusted = true → u'.trusted = true) := by
  subst hs'
  cases created with
  | false =>
    rw [bind_confirmation_not_created]
    exact C9core_refl now inst s
  | true =>
    cases inst with
    | tx t =>
      rw [bind_confirmation_tx_eq]
      unfold bindTxBranch
      by_cases hk : (s.confirmations.filter (matchesUnbound t.safe_tx_hash)).length ≠ 0
      · rw [if_pos hk]
        refine ⟨?_, ?_, ?_⟩
        · intro i c c' h hc hc' hb
          rcases getElem?_map_ite (fun x => matchesUnbound t.safe_tx_hash x = true)
              (fun x => { x with multisig_transaction := some t.safe_tx_hash })
              hc hc' with ⟨hm, rfl⟩ | ⟨hm, rfl⟩
          · simp
          · rw [hb]; simp
        · intro i c c' h hc hc' hn hb
          rcases getElem?_map_ite (fun x => matchesUnbound t.safe_tx_hash x = true)
              (fun x => { x with multisig_transaction := some t.safe_tx_hash })
              hc hc' with ⟨hm, rfl⟩ | ⟨hm, rfl⟩
          · have hth : t.safe_tx_hash = h := by simpa using hb
            intro j t' ht' hth'
            obtain ⟨u, hu, hcase⟩ := getElem?_map_ite'
              (fun u : MultisigTransaction => u.safe_tx_hash = t.safe_tx_hash)
              (fun u : MultisigTransaction => { u with modified := now, trusted := true }) ht'
            rcases hcase with ⟨hmu, rfl⟩ | ⟨hmu, rfl⟩
            · exact ⟨rfl, rfl⟩
            · exact absurd (hth'.trans hth.symm) hmu
          · rw [hn] at hb
            exact absurd hb (by simp)
        · intro j u u' hu hu' ht
          rcases getElem?_map_ite (fun u => u.safe_tx_hash = t.safe_tx_hash)
              (fun u => { u with modified := now, trusted := true })
              hu hu' with ⟨hmu, rfl⟩ | ⟨hmu, rfl⟩
          · rfl
          · exact ht
      · rw [if_neg hk]
        refine ⟨?_, ?_, ?_⟩
        · intro i c c' h hc hc' hb
          rcases getElem?_map_ite (fun x => matchesUnbound t.safe_tx_hash x = true)
              (fun x => { x with multisig_transaction := some t.safe_tx_hash })
              hc hc' with ⟨hm, rfl⟩ | ⟨hm, rfl⟩
          · simp
          · rw [hb]; simp
        · intro i c c' h hc hc' hn hb
          rcases getElem?_map_ite (fun x => matchesUnbound t.safe_tx_hash x = true)
              (fun x => { x with multisig_transaction := some t.safe_tx_hash })
              hc hc' with ⟨hm, rfl⟩ | ⟨hm, rfl⟩
          · exact absurd ((exists_matchesUnbound_iff t.safe_tx_hash s.confirmations).2
              ⟨c, List.getElem?_mem hc, (matchesUnbound_iff t.safe_tx_hash c).1 hm⟩) hk
          · rw [hn] at hb
            exact absurd hb (by simp)
        · intro j u u' hu hu' ht
          rw [hu, Option.some.injEq] at hu'
          rw [← hu']
          exact ht
    | conf c0 =>
      rw [bind_confirmation_conf_eq]
      unfold bindConfBranch
      by_cases hb0 : (truthyStr c0.multisig_transaction).isSome
      · rw [if_pos hb0]
        refine ⟨?_, ?_, ?_⟩
        · intro i c c' h hc hc' hb
          rw [hc, Option.some.injEq] at hc'
          rw [← hc', hb]
          simp
        · intro i c c' h hc hc' hn hb
          rw [hc, Option.some.injEq] at hc'
          rw [← hc', hn] at hb
          exact absurd hb (by simp)
        · intro j u u' hu hu' ht
          rcases getElem?_map_ite
              (fun t => some t.safe_tx_hash = c0.multisig_transaction_hash)
              (fun t => { t with modified := c0.created, trusted := true })
              hu hu' with ⟨hmu, rfl⟩ | ⟨hmu, rfl⟩
          · rfl
          · exact ht
      · rw [if_neg hb0]
        cases hh : truthyStr c0.multisig_transaction_hash with
        | none =>
          dsimp only
          exact C9core_refl now (.conf c0) s
        | some h0 =>
          dsimp only
          cases hf : s.transactions.find? (fun t => t.safe_tx_hash == h0) with
          | none => exact C9core_refl now (.conf c0) s
          | some t0 =>
            dsimp only
            refine ⟨?_, ?_, ?_⟩
            · intro i c c' h hc hc' hb
              rcases getElem?_map_ite (fun c2 => c2.id = c0.id)
                  (fun c2 => { c2 with multisig_transaction := some t0.safe_tx_hash })
                  hc hc' with ⟨hm, rfl⟩ | ⟨hm, rfl⟩
              · simp
              · rw [hb]; simp
            · intro i c c' h hc hc' hn hb
              rcases getElem?_map_ite (fun c2 => c2.id = c0.id)
                  (fun c2 => { c2 with multisig_transaction := some t0.safe_tx_hash })
                  hc hc' with ⟨hm, rfl⟩ | ⟨hm, rfl⟩
              · have hth : t0.safe_tx_hash = h := by simpa using hb
                intro j t' ht' hth'
                obtain ⟨u, hu, hcase⟩ := getElem?_map_ite'
                  (fun u : MultisigTransaction => u.safe_tx_hash = t0.safe_tx_hash)
                  (fun u : MultisigTransaction =>
                    { u with modified := c0.created, trusted := true }) ht'
                rcases hcase with ⟨hmu, rfl⟩ | ⟨hmu, rfl⟩
                · exact ⟨rfl, rfl⟩
                · exact absurd (hth'.trans hth.symm) hmu
              · rw [hn] at hb
                exact absurd hb (by simp)
            · intro j u u' hu hu' ht
              rcases getElem?_map_ite (fun u => u.safe_tx_hash = t0.safe_tx_hash)
                  (fun u => { u with modified := c0.created, trusted := true })
                  hu hu' with ⟨hmu, rfl⟩ | ⟨hmu, rfl⟩
              · rfl
              · exact ht

/-- Witness for C9: a confirmation-created event binds the stored unbound
confirmation to the stored transaction, which ends up trusted with
`modified` equal to the confirmation's creation time. -/
theorem C9_binding_and_trust_monotone_witness :
    (⟨"h1", "safeB", 3, true, 10, 20⟩ : MultisigTransaction).trusted = true ∧
    (⟨"h1", "safeB", 3, true, 10, 20⟩ : MultisigTransaction).modified
      = eventTimestamp 99 (.conf ⟨4, "ownB", none, some "h1", 20⟩) :=
  (C9_binding_and_trust_monotone 99 (.conf ⟨4, "ownB", none, some "h1", 20⟩) true
      ⟨[⟨"h1", "safeB", 3, false, 10, 10⟩], [⟨4, "ownB", none, some "h1", 20⟩]⟩ _ rfl).2.1
    0 ⟨4, "ownB", none, some "h1", 20⟩ ⟨4, "ownB", some "h1", some "h1", 20⟩ "h1"
    (by decide) (by decide) rfl rfl
    0 ⟨"h1", "safeB", 3, true, 10, 20⟩ (by decide) rfl

/-- C1: starting from an empty store, creating transaction `T` (hash `H`)
and confirmation `C` (referencing `H`, initially unbound) in either order
reaches the same final state shape: `C` bound to `T`, `T` trusted, and
`T`'s modification time at least the maximum of the two creation times.
The time hypotheses state that each event's binder runs no earlier than the
rows already created. -/
theorem C1_bind_order_independent
    (T : MultisigTransaction) (C : MultisigConfirmation) (H : String)
    (nowA1 nowA2 nowB1 nowB2 : Nat)
    (hT : T.safe_tx_hash = H) (hH : H ≠ "")
    (hCb : C.multisig_transaction = none)
    (hCh : C.multisig_transaction_hash = some H)
    (hTimeA : T.created ≤ C.created)
    (hTimeB1 : T.created ≤ nowB2) (hTimeB2 : C.created ≤ nowB2) :
    ∃ mA mB,
      createConf nowA2 C (createTx nowA1 T ⟨[], []⟩)
        = ⟨[{ T with trusted := true, modified := mA }],
           [{ C with multisig_transaction := some H }]⟩ ∧
      createTx nowB2 T (createConf nowB1 C ⟨[], []⟩)
        = ⟨[{ T with trusted := true, modified := mB }],
           [{ C with multisig_transaction := some H }]⟩ ∧
      max T.created C.created ≤ mA ∧ max T.created C.created ≤ mB := by
  have hA1 : createTx nowA1 T ⟨[], []⟩ = ⟨[T], []⟩ := by
    simp [createTx, bind_confirmation_tx_eq, bindTxBranch]
  have hA2 : createConf nowA2 C ⟨[T], []⟩
      = ⟨[{ T with trusted := true, modified := C.created }],
         [{ C with multisig_transaction := some H }]⟩ := by
    simp [createConf, bind_confirmation_conf_eq, bindConfBranch, truthyStr,
      List.find?, hCb, hCh, hT, hH]
  have hB1 : createConf nowB1 C ⟨[], []⟩ = ⟨[], [C]⟩ := by
    simp [createConf, bind_confirmation_conf_eq, bindConfBranch, truthyStr,
      List.find?, hCb, hCh, hH]
  have hB2 : createTx nowB2 T ⟨[], [C]⟩
      = ⟨[{ T with trusted := true, modified := nowB2 }],
         [{ C with multisig_transaction := some H }]⟩ := by
    simp [createTx, bind_confirmation_tx_eq, bindTxBranch, matchesUnbound,
      hCb, hCh, hT]
  refine ⟨C.created, nowB2, ?_, ?_, ?_, ?_⟩
  · rw [hA1]
    exact hA2
  · rw [hB1]
    exact hB2
  · exact Nat.max_le.mpr ⟨hTimeA, le_rfl⟩
  · exact Nat.max_le.mpr ⟨hTimeB1, hTimeB2⟩

/-- Witness for C1 at a concrete transaction/confirmation pair. -/
theorem C1_bind_order_independent_witness :
    ∃ mA mB,
      createConf 21 ⟨5, "ownC", none, some "h9", 20⟩
          (createTx 11 ⟨"h9", "safeC", 2, false, 10, 10⟩ ⟨[], []⟩)
        = ⟨[{ (⟨"h9", "safeC", 2, false, 10, 10⟩ : MultisigTransaction) with
              trusted := true, modified := mA }],
           [{ (⟨5, "ownC", none, some "h9", 20⟩ : MultisigConfirmation) with
              multisig_transaction := some "h9" }]⟩ ∧
      createTx 30 ⟨"h9", "safeC", 2, false, 10, 10⟩
          (createConf 12 ⟨5, "ownC", none, some "h9", 20⟩ ⟨[], []⟩)
        = ⟨[{ (⟨"h9", "safeC", 2, false, 10, 10⟩ : MultisigTransaction) with
              trusted := true, modified := mB }],
           [{ (⟨5, "ownC", none, some "h9", 20⟩ : MultisigConfirmation) with
              multisig_transaction := some "h9" }]⟩ ∧
      max (10 : Nat) 20 ≤ mA ∧ max (10 : Nat) 20 ≤ mB :=
  C1_bind_order_independent ⟨"h9", "safeC", 2, false, 10, 10⟩
    ⟨5, "ownC", none, some "h9", 20⟩ "h9" 11 21 12 30
    rfl (by decide) rfl rfl (by decide) (by decide) (by decide)

theorem dispatchLoop_ok (relevant : Bool)
    (enq : String → Payload → Except String Unit)
    (pub : Payload → Except String Unit)
    (henq : ∀ a p, enq a p = Except.ok ())
    (hpub : ∀ p, pub p = Except.ok ())
    (payloads : List Payload) :
    dispatchLoop relevant enq pub payloads =
      ⟨payloads.flatMap fun p =>
          match truthyStr p.address with
          | some a =>
            if relevant then [DispatchAction.enqueue a p 5 2, DispatchAction.publish p]
            else []
          | none => [],
        none⟩ := by
  induction payloads with
  | nil => rfl
  | cons p rest ih =>
    rw [dispatchLoop]
    cases hta : truthyStr p.address with
    | none => simp [hta, ih]
    | some a =>
      by_cases hr : relevant = true
      · subst hr
        simp [hta, henq, hpub, ih]
      · have hr' : relevant = false := by simpa using hr
        subst hr'
        simp [hta, ih]

theorem mem_dispatchSpec {payloads : List Payload} {relevant : Bool}
    {x : DispatchAction} :
    x ∈ (payloads.flatMap fun p =>
        match truthyStr p.address with
        | some a =>
          if relevant then [DispatchAction.enqueue a p 5 2, DispatchAction.publish p]
          else []
        | none => []) ↔
      ∃ p ∈ payloads, ∃ a, truthyStr p.address = some a ∧ relevant = true ∧
        (x = DispatchAction.enqueue a p 5 2 ∨ x = DispatchAction.publish p) := by
  rw [List.mem_flatMap]
  constructor
  · rintro ⟨p, hp, hx⟩
    cases hta : truthyStr p.address with
    | none => simp [hta] at hx
    | some a =>
      simp only [hta] at hx
      by_cases hr : relevant = true
      · rw [if_pos hr] at hx
        simp only [List.mem_cons, List.mem_singleton] at hx
        rcases hx with hx | hx | hx
        · exact ⟨p, hp, a, hta, hr, Or.inl hx⟩
        · exact ⟨p, hp, a, hta, hr, Or.inr hx⟩
        · exact absurd hx (List.not_mem_nil x)
      · rw [if_neg hr] at hx
        simp at hx
  · rintro ⟨p, hp, a, hta, hr, hx⟩
    refine ⟨p, hp, ?_⟩
    simp only [hta]
    rw [if_pos hr]
    rcases hx with hx | hx <;> simp [hx]

theorem dispatchSpec_irrelevant (payloads : List Payload) :
    (payloads.flatMap fun p =>
        match truthyStr p.address with
        | some a =>
          if (false : Bool) = true
          then [DispatchAction.enqueue a p 5 2, DispatchAction.publish p] else []
        | none => []) = [] := by
  induction payloads with
  | nil => rfl
  | cons p rest ih =>
    rw [List.flatMap_cons, ih]
    cases hta : truthyStr p.address <;> simp [hta]

/-- C6: with both channels succeeding, a payload is dispatched — one deferred
enqueue (delay 5, priority 2) followed by one event-bus publish — exactly
when its target address is truthy and the relevance classifier answered
true; a `false` classifier yields zero outbound calls, and a payload whose
address is empty or absent is never dispatched. -/
theorem C6_dispatch_iff (payloads : List Payload) (relevant : Bool)
    (enq : String → Payload → Except String Unit)
    (pub : Payload → Except String Unit) (created deleted : Bool)
    (hcd : ¬(created = true ∧ deleted = true))
    (henq : ∀ a p, enq a p = Except.ok ())
    (hpub : ∀ p, pub p = Except.ok ()) :
    (process_notification_event payloads relevant enq pub created deleted).error
        = none ∧
    (process_notification_event payloads relevant enq pub created deleted).performed
        = (payloads.flatMap fun p =>
            match truthyStr p.address with
            | some a =>
              if relevant then [DispatchAction.enqueue a p 5 2, DispatchAction.publish p]
              else []
            | none => []) ∧
    (relevant = false →
      (process_notification_event payloads relevant enq pub created deleted).performed
        = []) ∧
    (∀ x ∈ (process_notification_event payloads relevant enq pub created deleted).performed,
      ∃ p ∈ payloads, ∃ a, truthyStr p.address = some a ∧ relevant = true ∧
        (x = DispatchAction.enqueue a p 5 2 ∨ x = DispatchAction.publish p)) ∧
    (∀ p ∈ payloads, ∀ a, truthyStr p.address = some a → relevant = true →
      DispatchAction.enqueue a p 5 2 ∈
        (process_notification_event payloads relevant enq pub created deleted).performed ∧
      DispatchAction.publish p ∈
        (process_notification_event payloads relevant enq pub created deleted).performed) := by
  have hbd : (created && deleted) = false := by
    cases created <;> cases deleted <;> simp_all
  have hP : process_notification_event payloads relevant enq pub created deleted
      = dispatchLoop relevant enq pub payloads := by
    unfold process_notification_event
    rw [hbd]
    rfl
  rw [hP, dispatchLoop_ok relevant enq pub henq hpub payloads]
  refine ⟨rfl, rfl, ?_, ?_, ?_⟩
  · intro hr
    subst hr
    exact dispatchSpec_irrelevant payloads
  · intro x hx
    exact mem_dispatchSpec.1 hx
  · intro p hp a hta hr
    constructor
    · exact mem_dispatchSpec.2 ⟨p, hp, a, hta, hr, Or.inl rfl⟩
    · exact mem_dispatchSpec.2 ⟨p, hp, a, hta, hr, Or.inr rfl⟩

/-- Witness for C6: three payloads — truthy address, absent address, empty
address — with a true classifier produce exactly one enqueue and one
publish, for the truthy payload only. -/
theorem C6_dispatch_iff_witness :
    (process_notification_event [⟨some "0xA", 1⟩, ⟨none, 2⟩, ⟨some "", 3⟩] true
        (fun _ _ => Except.ok ()) (fun _ => Except.ok ()) true false).performed
      = [DispatchAction.enqueue "0xA" ⟨some "0xA", 1⟩ 5 2,
         DispatchAction.publish ⟨some "0xA", 1⟩] := by
  have h := C6_dispatch_iff [⟨some "0xA", 1⟩, ⟨none, 2⟩, ⟨some "", 3⟩] true
      (fun _ _ => Except.ok ()) (fun _ => Except.ok ()) true false
      (by simp) (fun _ _ => rfl) (fun _ => rfl)
  rw [h.2.1]
  rfl

/-- Counterexample to C7 as stated: in the source the two channel calls run
sequentially with no exception handling, so at this concrete input a failing
enqueue suppresses the publish and the error escapes the hook, and a failing
publish also escapes (`error ≠ none` is the exception propagating to the
triggering writer). -/
theorem C7_channels_not_isolated_counterexample :
    (process_notification_event [⟨some "0xA", 7⟩] true
        (fun _ _ => Except.error "enqueue boom") (fun _ => Except.ok ()) true false
      = ⟨[], some "enqueue boom"⟩) ∧
    DispatchAction.publish ⟨some "0xA", 7⟩ ∉
      (process_notification_event [⟨some "0xA", 7⟩] true
          (fun _ _ => Except.error "enqueue boom") (fun _ => Except.ok ())
          true false).performed ∧
    (process_notification_event [⟨some "0xA", 7⟩] true
        (fun _ _ => Except.error "enqueue boom") (fun _ => Except.ok ())
        true false).error ≠ none ∧
    (process_notification_event [⟨some "0xA", 7⟩] true
        (fun _ _ => Except.ok ()) (fun _ => Except.error "publish boom") true false
      = ⟨[DispatchAction.enqueue "0xA" ⟨some "0xA", 7⟩ 5 2], some "publish boom"⟩) ∧
    (process_notification_event [⟨some "0xA", 7⟩] true
        (fun _ _ => Except.ok ()) (fun _ => Except.error "publish boom")
        true false).error ≠ none := by
  refine ⟨rfl, ?_, ?_, rfl, ?_⟩ <;> decide

/-- C7 amended: the two delivery channels are sequential and unprotected in
`_process_notification_event`: for a dispatched payload, an enqueue failure
prevents that payload's publish (and every later payload) and propagates
out of the hook to the writer; a publish failure leaves the completed
enqueue in place but propagates all the same. -/
theorem C7_amended_channels_sequential (p : Payload) (a : String)
    (rest : List Payload) (enq : String → Payload → Except String Unit)
    (pub : Payload → Except String Unit) (created deleted : Bool)
    (hcd : ¬(created = true ∧ deleted = true))
    (ha : truthyStr p.address = some a) :
    (∀ e, enq a p = Except.error e →
      process_notification_event (p :: rest) true enq pub created deleted
        = ⟨[], some e⟩) ∧
    (∀ e, enq a p = Except.ok () → pub p = Except.error e →
      process_notification_event (p :: rest) true enq pub created deleted
        = ⟨[DispatchAction.enqueue a p 5 2], some e⟩) := by
  have hbd : (created && deleted) = false := by
    cases created <;> cases deleted <;> simp_all
  have hP : process_notification_event (p :: rest) true enq pub created deleted
      = dispatchLoop true enq pub (p :: rest) := by
    unfold process_notification_event
    rw [hbd]
    rfl
  constructor
  · intro e he
    rw [hP, dispatchLoop]
    simp [ha, he]
  · intro e he1 he2
    rw [hP, dispatchLoop]
    simp [ha, he1, he2]

/-- Witness for the amended C7: a failing enqueue yields an empty performed
list and the propagated error. -/
theorem C7_amended_channels_sequential_witness :
    process_notification_event [⟨some "0xB", 9⟩] true
        (fun _ _ => Except.error "broker down") (fun _ => Except.ok ())
        false false
      = ⟨[], some "broker down"⟩ :=
  (C7_amended_channels_sequential ⟨some "0xB", 9⟩ "0xB" []
      (fun _ _ => Except.error "broker down") (fun _ => Except.ok ())
      false false (by simp) (by decide)).1 "broker down" rfl

end SnaxHistory
